import Mathlib

/-!
A shallow embedding of src/download_context_docs.py
(class GoogleScholarPDFDownloader) and proofs about it.

Covered code, with the Python name kept where Lean allows it:

* author/year extraction and target-filename construction
  (check_download_complete, lines 177-183): extractAuthor, extractYear,
  fmt03d, targetFilename;
* the download reconciler over a modelled output directory
  (check_download_complete, lines 186-204): pdfFiles, pyMax, latestPdf,
  renameFile, checkDownloadComplete.  os.rename is given POSIX semantics:
  an existing target entry is silently replaced;
* result-page link scanning (search_and_download, lines 85-132):
  containsPDFMarker, isPdfLinkA, tryLinksA, tryLinksB, scanLinks, with
  "clicking link l leads to a confirmed download" abstracted as an
  oracle confirms : Link -> Bool;
* per-attempt logging and manual-follow-up writing and the batch loop
  (search_and_download lines 146-172, save_manual_url lines 210-216,
  process_citations lines 218-241): searchAndDownload, saveManualUrl,
  processCitations, with the browser interaction of one attempt
  abstracted as an AttemptEnv oracle.

Python regex character classes are compiled to ASCII predicates:
[A-Za-z] as isAsciiLetter, \d as [0-9], word characters as [A-Za-z0-9_].
Files are modelled as (name, creation time, content) entries; a JSON log
record is modelled as an ordered key/value list so that the exact set of
keys of each record is visible.
-/

/-- ASCII letter, the class [A-Za-z] of the Python regexes. -/
def isAsciiLetter (c : Char) : Bool :=
  ('A' ≤ c && c ≤ 'Z') || ('a' ≤ c && c ≤ 'z')

/-- ASCII digit, the class \d restricted to ASCII. -/
def isAsciiDigit (c : Char) : Bool :=
  '0' ≤ c && c ≤ '9'

/-- Word character, the class \w (ASCII reading), used for \b boundaries. -/
def isWordChar (c : Char) : Bool :=
  isAsciiLetter c || isAsciiDigit c || c = '_'

/-- author extraction of check_download_complete line 180-181:
re.match of ([A-Za-z]+) anchored at the start; group(1) when the match
succeeds and the empty string otherwise.  The leading maximal run of
ASCII letters is exactly that. -/
def extractAuthor (s : String) : String :=
  String.mk (s.toList.takeWhile isAsciiLetter)

/-- Does the 2-character alternative (19|20) match at a pair of chars. -/
def isYearStart (a b : Char) : Bool :=
  (a = '1' && b = '9') || (a = '2' && b = '0')

/-- Does the pattern of line 178, (19|20)\d{2} with \b on both sides,
match at position i of the character list l. -/
def isYearTokenAt (l : List Char) (i : Nat) : Bool :=
  (i == 0 || !isWordChar (l.getD (i - 1) ' ')) &&
  isYearStart (l.getD i ' ') (l.getD (i + 1) ' ') &&
  isAsciiDigit (l.getD (i + 2) ' ') &&
  isAsciiDigit (l.getD (i + 3) ' ') &&
  (decide (l.length ≤ i + 4) || !isWordChar (l.getD (i + 4) ' '))

/-- First position at or after start, within the given fuel, where the
predicate holds: the position scan of re.search. -/
def findFirst (p : Nat → Bool) : Nat → Nat → Option Nat
  | _, 0 => none
  | i, fuel + 1 => if p i then some i else findFirst p (i + 1) fuel

/-- year extraction of check_download_complete lines 178-179:
re.search of (19|20)\d{2} with \b boundaries; the whole matched text at
the leftmost matching position, or the empty string when none matches. -/
def extractYear (s : String) : String :=
  match findFirst (fun i => isYearTokenAt s.toList i) 0 s.toList.length with
  | some i => String.mk ((s.toList.drop i).take 4)
  | none => ("")

/-- The Python format f-string piece for a Nat: zero-pad the decimal
representation on the left to width 3 (the 03d format spec). -/
def fmt03d (n : Nat) : String :=
  let s := toString n
  if s.length < 3 then String.mk (List.replicate (3 - s.length) '0') ++ s else s

/-- Spec-side restatement of "the ordinal zero-padded to 3 digits": the
three decimal digits of n (hundreds, tens, ones), as characters.  For
n in [0, 999] this is compared against fmt03d. -/
def zeroPad3Spec (n : Nat) : String :=
  String.mk [Nat.digitChar (n / 100 % 10), Nat.digitChar (n / 10 % 10), Nat.digitChar (n % 10)]

/-- Target filename of check_download_complete line 183. -/
def targetFilename (index : Nat) (citation : String) : String :=
  fmt03d index ++ ("_") ++ extractAuthor citation ++ ("_") ++ extractYear citation ++ (".pdf")

/-- Is pat a prefix of the text (character lists). -/
def startsWithChars : List Char → List Char → Bool
  | [], _ => true
  | _ :: _, [] => false
  | a :: asx, b :: bs => a == b && startsWithChars asx bs

/-- Does pat occur as a contiguous substring of the text: the Python
operator in on strings. -/
def hasSubChars : List Char → List Char → Bool
  | pat, [] => startsWithChars pat []
  | pat, c :: cs => startsWithChars pat (c :: cs) || hasSubChars pat cs

/-- Python str.endswith. -/
def strEndsWith (s suffix : String) : Bool :=
  startsWithChars suffix.toList.reverse s.toList.reverse

/-- A directory entry of the modelled output directory: file name,
creation timestamp (os.path.getctime) and content. -/
structure FileEntry where
  name : String
  ctime : Int
  content : String
deriving DecidableEq

/-- The listing filter of line 186: files whose name ends with .pdf. -/
def pdfFiles (dir : List FileEntry) : List FileEntry :=
  dir.filter (fun f => strEndsWith f.name (".pdf"))

/-- Python max with a key, line 190: scan left to right, replace the
current best only on strictly greater key, so the first maximum wins. -/
def pyMax (best : FileEntry) : List FileEntry → FileEntry
  | [] => best
  | g :: gs => pyMax (if best.ctime < g.ctime then g else best) gs

/-- latest_pdf of lines 188-190: the most recent .pdf, when any exists. -/
def latestPdf (dir : List FileEntry) : Option FileEntry :=
  match pdfFiles dir with
  | [] => none
  | f :: fs => some (pyMax f fs)

/-- os.rename src -> dst on the modelled directory, POSIX semantics: any
existing entry named dst is replaced, the entry named src now bears dst. -/
def renameFile (dir : List FileEntry) (src dst : String) : List FileEntry :=
  (dir.filter (fun f => f.name != dst)).map
    (fun f => if f.name = src then ⟨dst, f.ctime, f.content⟩ else f)

/-- check_download_complete, lines 186-204: pick the most recent .pdf in
the output directory; accept it only when its creation time is within 10
seconds of now; rename it to the target filename unless it already bears
it; report whether a download was reconciled, together with the resulting
directory. -/
def checkDownloadComplete (dir : List FileEntry) (now : Int) (citation : String)
    (index : Nat) : Bool × List FileEntry :=
  match latestPdf dir with
  | none => (false, dir)
  | some latest =>
    if now - latest.ctime < 10 then
      if latest.name = targetFilename index citation then (true, dir)
      else (true, renameFile dir latest.name (targetFilename index citation))
    else (false, dir)

/-- A result-page anchor element: its visible text and its href. -/
structure Link where
  text : String
  href : String
deriving DecidableEq

/-- Does the visible label carry the PDF marker: the Python test
of line 101, the string [PDF] occurring in link_text (also the XPath
filter of line 120). -/
def containsPDFMarker (s : String) : Bool :=
  hasSubChars (("[PDF]").toList) s.toList

/-- Qualification test of pass (a), line 101: marker in the label, or
href ending in .pdf. -/
def isPdfLinkA (l : Link) : Bool :=
  containsPDFMarker l.text || strEndsWith l.href (".pdf")

/-- Pass (a) loop of lines 94-115 over the links found inside the
div.gs_or_ggsm grouping: walk the links in order; click each qualifying
one; stop at the first whose download is confirmed.  The oracle confirms
abstracts "check_download_complete returned True after clicking l". -/
def tryLinksA (confirms : Link → Bool) : List Link → Option Link
  | [] => none
  | l :: ls => if isPdfLinkA l && confirms l then some l else tryLinksA confirms ls

/-- Pass (b) loop of lines 118-132: walk the marker-labelled links in
order and stop at the first whose download is confirmed (every element
already qualified through the XPath filter). -/
def tryLinksB (confirms : Link → Bool) : List Link → Option Link
  | [] => none
  | l :: ls => if confirms l then some l else tryLinksB confirms ls

/-- The two-pass link scan of lines 94-132.  grouped holds the links
inside the PDF-result grouping, allLinks every link of the page.  Returns
the link whose click produced a confirmed download, when any, together
with whether the fallback pass (b) was entered (it is entered exactly
when pdf_found is still False after pass (a), line 118). -/
def scanLinks (confirms : Link → Bool) (grouped allLinks : List Link) :
    Option Link × Bool :=
  match tryLinksA confirms grouped with
  | some l => (some l, false)
  | none => (tryLinksB confirms (allLinks.filter (fun l => containsPDFMarker l.text)), true)

/-- A JSON scalar as stored in the download log records. -/
inductive JVal where
  | jstr (s : String)
  | jnat (n : Nat)
deriving DecidableEq

/-- A log record: an ordered key/value object, as the Python dict
literals of lines 147-171 build it. -/
abbrev Rec := List (String × JVal)

/-- The success record of lines 147-151. -/
def successRecord (citation : String) (index : Nat) : Rec :=
  [(("status"), JVal.jstr ("success")),
   (("citation"), JVal.jstr citation),
   (("index"), JVal.jnat index)]

/-- The failure record of lines 155-159. -/
def failedRecord (citation : String) : Rec :=
  [(("status"), JVal.jstr ("failed")),
   (("citation"), JVal.jstr citation),
   (("reason"), JVal.jstr ("No PDF found or download failed"))]

/-- The error record of lines 167-171. -/
def errorRecord (citation msg : String) : Rec :=
  [(("status"), JVal.jstr ("error")),
   (("citation"), JVal.jstr citation),
   (("error"), JVal.jstr msg)]

/-- The status field of a record, when present and a string. -/
def recStatus (r : Rec) : Option String :=
  match List.lookup ("status") r with
  | some (JVal.jstr s) => some s
  | _ => none

/-- Mutable state of a run: the in-memory download_log and the manual
follow-up text files present in the output directory, as name/content
pairs. -/
structure RunState where
  log : List Rec
  manualFiles : List (String × String)

/-- State at construction time: empty log (line 26); no follow-up files
are considered present. -/
def initState : RunState := RunState.mk [] []

/-- Writing a file with mode w: an existing file of that name is
overwritten. -/
def writeFile (files : List (String × String)) (name content : String) :
    List (String × String) :=
  (files.filter (fun p => p.1 != name)) ++ [(name, content)]

/-- File name used by save_manual_url, line 212. -/
def manualFileName (index : Nat) : String :=
  fmt03d index ++ ("_manual_download.txt")

/-- File body written by save_manual_url, lines 214-216. -/
def manualContent (citation url : String) : String :=
  ("Citation: ") ++ citation ++ ("\n\nGoogle Scholar URL: ") ++ url ++
  ("\n\nThis paper needs to be downloaded manually.\n")

/-- save_manual_url, lines 210-216, acting on the set of follow-up
files. -/
def saveManualUrl (files : List (String × String)) (citation : String)
    (index : Nat) (url : String) : List (String × String) :=
  writeFile files (manualFileName index) (manualContent citation url)

/-- Everything the browser environment decides about one attempt:
either navigation raises outside the inner try (caught at line 165),
or the CAPTCHA check of line 73 fires, or a result page is served, given
by its grouped links, all its links, the click-confirmation oracle, and
the current URL observed when saving the manual follow-up (line 162).
A timeout or an error inside the inner link-scanning try of lines 85-144
is caught there and leaves pdf_found False, so such an attempt is
represented as a page on which no click is confirmed. -/
inductive AttemptEnv where
  | throws (msg : String)
  | blocked (url : String)
  | page (grouped allLinks : List Link) (confirms : Link → Bool) (url : String)

/-- search_and_download, lines 59-172, at the granularity of one attempt:
returns the Boolean it returns, together with the updated run state.
Blocked (line 73-76) returns False having appended nothing; a confirmed
download appends the success record; an unconfirmed page appends the
failure record and writes the manual follow-up file; an exception outside
the inner try appends the error record and writes no follow-up file. -/
def searchAndDownload (env : AttemptEnv) (citation : String) (index : Nat)
    (st : RunState) : Bool × RunState :=
  match env with
  | AttemptEnv.blocked _ => (false, st)
  | AttemptEnv.throws msg =>
      (false, RunState.mk (st.log ++ [errorRecord citation msg]) st.manualFiles)
  | AttemptEnv.page grouped allLinks confirms url =>
      match (scanLinks confirms grouped allLinks).1 with
      | some _ => (true, RunState.mk (st.log ++ [successRecord citation index]) st.manualFiles)
      | none =>
          (false, RunState.mk (st.log ++ [failedRecord citation])
            (saveManualUrl st.manualFiles citation index url))

/-- Python str.strip: drop leading and trailing whitespace. -/
def pyStrip (s : String) : String :=
  String.mk (((s.toList.dropWhile Char.isWhitespace).reverse.dropWhile Char.isWhitespace).reverse)

/-- process_citations, lines 218-241: run the attempts in order, the
ordinal being start_index plus the position; each citation is stripped
before use (line 228).  The delays and the final serialisation do not
change the log, so the resulting state carries the full ordered log as
persisted at batch end. -/
def processCitations (batch : List (String × AttemptEnv)) (startIndex : Nat)
    (st : RunState) : RunState :=
  match batch with
  | [] => st
  | (citation, env) :: rest =>
      processCitations rest (startIndex + 1)
        (searchAndDownload env (pyStrip citation) startIndex st).2

/-- The records one attempt appends to the log. -/
def attemptRecords (env : AttemptEnv) (citation : String) (index : Nat) : List Rec :=
  match env with
  | AttemptEnv.throws msg => [errorRecord citation msg]
  | AttemptEnv.blocked _ => []
  | AttemptEnv.page grouped allLinks confirms _ =>
      if (scanLinks confirms grouped allLinks).1.isSome then [successRecord citation index]
      else [failedRecord citation]

/-- The log status an attempt environment leads to: none for a blocked
attempt, otherwise the status string of its single record. -/
def envStatus : AttemptEnv → Option String
  | AttemptEnv.throws _ => some ("error")
  | AttemptEnv.blocked _ => none
  | AttemptEnv.page grouped allLinks confirms _ =>
      if (scanLinks confirms grouped allLinks).1.isSome then some ("success")
      else some ("failed")

/-- Appending strings appends their character lists. -/
theorem string_toList_append (s t : String) : (s ++ t).toList = s.toList ++ t.toList :=
  String.data_append s t

/-- A list is a prefix of itself followed by anything. -/
theorem startsWithChars_append (p r : List Char) : startsWithChars p (p ++ r) = true := by
  induction p with
  | nil => rfl
  | cons a asx ih => simp [startsWithChars, ih]

/-- str.endswith accepts the appended suffix. -/
theorem strEndsWith_append (s t : String) : strEndsWith (s ++ t) t = true := by
  show startsWithChars t.toList.reverse (s ++ t).toList.reverse = true
  rw [string_toList_append, List.reverse_append]
  exact startsWithChars_append _ _

/-- The target filename always ends in .pdf. -/
theorem targetFilename_ends_pdf (index : Nat) (citation : String) :
    strEndsWith (targetFilename index citation) (".pdf") = true := by
  show strEndsWith
    ((fmt03d index ++ ("_") ++ extractAuthor citation ++ ("_") ++ extractYear citation) ++ (".pdf"))
    (".pdf") = true
  exact strEndsWith_append _ _

/-- The head of dropWhile does not satisfy the predicate. -/
theorem head_dropWhile_false (p : Char → Bool) :
    ∀ (l : List Char) (c : Char), (l.dropWhile p).head? = some c → p c = false := by
  intro l
  induction l with
  | nil => intro c h; simp [List.dropWhile] at h
  | cons a asx ih =>
    intro c h
    rw [List.dropWhile_cons] at h
    by_cases hp : p a = true
    · rw [if_pos hp] at h; exact ih c h
    · rw [if_neg hp] at h
      simp at h
      rw [← h]
      exact Bool.not_eq_true (p a) |>.mp hp

/-- findFirst finds nothing iff the predicate fails on the scanned range. -/
theorem findFirst_none_iff (p : Nat → Bool) :
    ∀ (fuel start : Nat),
      findFirst p start fuel = none ↔ ∀ j, start ≤ j → j < start + fuel → p j = false := by
  intro fuel
  induction fuel with
  | zero =>
    intro start
    constructor
    · intro _ j h1 h2; exact absurd h2 (by omega)
    · intro _; rfl
  | succ f ih =>
    intro start
    cases hps : p start with
    | true =>
      simp only [findFirst, hps, if_pos]
      constructor
      · intro h; exact absurd h (by simp)
      · intro hall
        have := hall start (le_refl start) (by omega)
        rw [hps] at this
        exact absurd this (by simp)
    | false =>
      simp only [findFirst, hps]
      rw [if_neg (by simp)]
      rw [ih (start + 1)]
      constructor
      · intro hall j h1 h2
        rcases Nat.eq_or_lt_of_le h1 with he | hl
        · rw [← he]; exact hps
        · exact hall j hl (by omega)
      · intro hall j h1 h2
        exact hall j (by omega) (by omega)

/-- findFirst returns exactly the least position in range where the
predicate holds. -/
theorem findFirst_some_iff (p : Nat → Bool) :
    ∀ (fuel start j : Nat),
      findFirst p start fuel = some j ↔
        (start ≤ j ∧ j < start + fuel ∧ p j = true ∧
          ∀ k, start ≤ k → k < j → p k = false) := by
  intro fuel
  induction fuel with
  | zero =>
    intro start j
    constructor
    · intro h; exact absurd h (by simp [findFirst])
    · intro ⟨_, h2, _, _⟩; exact absurd h2 (by omega)
  | succ f ih =>
    intro start j
    cases hps : p start with
    | true =>
      simp only [findFirst, hps, if_pos]
      constructor
      · intro h
        have hj : start = j := by simpa using h
        refine ⟨by omega, by omega, by rw [← hj]; exact hps, ?_⟩
        intro k h1 h2
        exact absurd h2 (by omega)
      · intro ⟨h1, _, _, hmin⟩
        rcases Nat.eq_or_lt_of_le h1 with he | hl
        · rw [he]
        · have := hmin start (le_refl start) hl
          rw [hps] at this
          exact absurd this (by simp)
    | false =>
      simp only [findFirst, hps]
      rw [if_neg (by simp)]
      rw [ih (start + 1) j]
      constructor
      · intro ⟨h1, h2, h3, hmin⟩
        refine ⟨by omega, by omega, h3, ?_⟩
        intro k hk1 hk2
        rcases Nat.eq_or_lt_of_le hk1 with he | hl
        · rw [← he]; exact hps
        · exact hmin k hl hk2
      · intro ⟨h1, h2, h3, hmin⟩
        have hjs : start ≠ j := by
          intro he
          rw [← he] at h3
          rw [hps] at h3
          exact absurd h3 (by simp)
        refine ⟨by omega, by omega, h3, ?_⟩
        intro k hk1 hk2
        exact hmin k (by omega) hk2

/-- A match of the year pattern needs four characters in range. -/
theorem isYearTokenAt_oob (l : List Char) (i : Nat) (h : l.length ≤ i + 3) :
    isYearTokenAt l i = false := by
  unfold isYearTokenAt
  rw [List.getD_eq_default l ' ' (by omega : l.length ≤ i + 3)]
  simp [isAsciiDigit]

/-- The character list of the extracted author is the leading run of
ASCII letters. -/
theorem extractAuthor_toList (s : String) :
    (extractAuthor s).toList = s.toList.takeWhile isAsciiLetter := rfl

/-- extractYear yields the empty string exactly when the year pattern
matches at no position of the text. -/
theorem extractYear_empty_iff (s : String) :
    extractYear s = ("") ↔ ∀ i, i < s.toList.length → isYearTokenAt s.toList i = false := by
  cases hf : findFirst (fun i => isYearTokenAt s.toList i) 0 s.toList.length with
  | none =>
    unfold extractYear
    rw [hf]
    constructor
    · intro _ i hi
      have := (findFirst_none_iff _ _ _).mp hf
      exact this i (Nat.zero_le i) (by omega)
    · intro _; rfl
  | some i =>
    have hprop := (findFirst_some_iff _ _ _ _).mp hf
    have htok : isYearTokenAt s.toList i = true := hprop.2.2.1
    have hlen : i + 3 < s.toList.length := by
      by_contra hcon
      rw [isYearTokenAt_oob s.toList i (by omega)] at htok
      exact absurd htok (by simp)
    unfold extractYear
    rw [hf]
    constructor
    · intro he
      exfalso
      have hdata : ((s.toList.drop i).take 4) = [] := congrArg String.data he
      have hlen4 : ((s.toList.drop i).take 4).length = 4 := by
        rw [List.length_take, List.length_drop]; omega
      rw [hdata] at hlen4
      simp at hlen4
    · intro hall
      exfalso
      have := hall i (by omega)
      rw [htok] at this
      exact absurd this (by simp)

/-- extractYear yields the text of the leftmost match of the year
pattern. -/
theorem extractYear_of_first_token (s : String) (i : Nat)
    (h1 : isYearTokenAt s.toList i = true)
    (h2 : ∀ j, j < i → isYearTokenAt s.toList j = false) :
    extractYear s = String.mk ((s.toList.drop i).take 4) := by
  have hlen : i + 3 < s.toList.length := by
    by_contra hcon
    rw [isYearTokenAt_oob s.toList i (by omega)] at h1
    exact absurd h1 (by simp)
  have hf : findFirst (fun k => isYearTokenAt s.toList k) 0 s.toList.length = some i :=
    (findFirst_some_iff _ _ _ _).mpr ⟨Nat.zero_le i, by omega, h1, fun k _ hk => h2 k hk⟩
  unfold extractYear
  rw [hf]

/-- extractAuthor yields the empty string exactly when the text does not
start with an ASCII letter. -/
theorem extractAuthor_empty_iff (s : String) :
    extractAuthor s = ("") ↔ ∀ c, s.toList.head? = some c → isAsciiLetter c = false := by
  cases hl : s.toList with
  | nil =>
    constructor
    · intro _ c hc; simp at hc
    · intro _
      show String.mk (s.toList.takeWhile isAsciiLetter) = ("")
      rw [hl]
      rfl
  | cons a asx =>
    constructor
    · intro he c hc
      simp at hc
      have hdata : s.toList.takeWhile isAsciiLetter = [] := congrArg String.data he
      rw [hl, List.takeWhile_cons] at hdata
      by_cases hp : isAsciiLetter a = true
      · rw [if_pos hp] at hdata; simp at hdata
      · rw [← hc]
        exact Bool.not_eq_true (isAsciiLetter a) |>.mp hp
    · intro hall
      show String.mk (s.toList.takeWhile isAsciiLetter) = ("")
      rw [hl, List.takeWhile_cons]
      have ha := hall a rfl
      rw [if_neg (by rw [ha]; simp)]

/-- The running maximum is the seed or one of the scanned entries. -/
theorem pyMax_mem : ∀ (fs : List FileEntry) (best : FileEntry), pyMax best fs ∈ best :: fs := by
  intro fs
  induction fs with
  | nil => intro best; simp [pyMax]
  | cons g gs ih =>
    intro best
    show pyMax (if best.ctime < g.ctime then g else best) gs ∈ best :: g :: gs
    by_cases h : best.ctime < g.ctime
    · rw [if_pos h]
      have := ih g
      rcases List.mem_cons.mp this with he | hm
      · rw [he]; simp
      · simp [hm]
    · rw [if_neg h]
      have := ih best
      rcases List.mem_cons.mp this with he | hm
      · rw [he]; simp
      · simp [hm]

/-- Every scanned entry has a creation time at most that of the running
maximum. -/
theorem pyMax_ctime_ge : ∀ (fs : List FileEntry) (best : FileEntry) (g : FileEntry),
    g ∈ best :: fs → g.ctime ≤ (pyMax best fs).ctime := by
  intro fs
  induction fs with
  | nil =>
    intro best g hg
    rcases List.mem_cons.mp hg with he | hm
    · rw [he]; simp [pyMax]
    · simp at hm
  | cons h hs ih =>
    intro best g hg
    show g.ctime ≤ (pyMax (if best.ctime < h.ctime then h else best) hs).ctime
    have hbest : best.ctime ≤ (if best.ctime < h.ctime then h else best).ctime := by
      by_cases hc : best.ctime < h.ctime
      · rw [if_pos hc]; omega
      · rw [if_neg hc]
    have hh : h.ctime ≤ (if best.ctime < h.ctime then h else best).ctime := by
      by_cases hc : best.ctime < h.ctime
      · rw [if_pos hc]
      · rw [if_neg hc]; omega
    have hseed := ih (if best.ctime < h.ctime then h else best)
      (if best.ctime < h.ctime then h else best) (by simp)
    rcases List.mem_cons.mp hg with he | hm
    · rw [he]; omega
    · rcases List.mem_cons.mp hm with he2 | hm2
      · rw [he2]; omega
      · exact ih (if best.ctime < h.ctime then h else best) g (List.mem_cons_of_mem _ hm2)

/-- Evaluation of the reconciler when no .pdf is present. -/
theorem checkDownloadComplete_of_none (dir : List FileEntry) (now : Int)
    (citation : String) (index : Nat) (hl : latestPdf dir = none) :
    checkDownloadComplete dir now citation index = (false, dir) := by
  unfold checkDownloadComplete
  rw [hl]

/-- Evaluation of the reconciler once the newest .pdf is known. -/
theorem checkDownloadComplete_of_latest (dir : List FileEntry) (now : Int)
    (citation : String) (index : Nat) (f : FileEntry) (hl : latestPdf dir = some f) :
    checkDownloadComplete dir now citation index =
      if now - f.ctime < 10 then
        if f.name = targetFilename index citation then (true, dir)
        else (true, renameFile dir f.name (targetFilename index citation))
      else (false, dir) := by
  unfold checkDownloadComplete
  rw [hl]

/-- C6: the reconciler considers exactly the .pdf files of the output
directory, with no filtering to files belonging to this attempt, and
reports true exactly when the most recent of them (maximal creation
time) was created within the 10-second window of now; in particular a
newest .pdf older than the window makes it report false even when no
other candidate exists. -/
theorem c6_newest_pdf_recency_window (dir : List FileEntry) (now : Int)
    (citation : String) (index : Nat) :
    (checkDownloadComplete dir now citation index).1 = true ↔
      ∃ f ∈ pdfFiles dir, (∀ g ∈ pdfFiles dir, g.ctime ≤ f.ctime) ∧ now - f.ctime < 10 := by
  cases hp : pdfFiles dir with
  | nil =>
    have hl : latestPdf dir = none := by unfold latestPdf; rw [hp]
    rw [checkDownloadComplete_of_none dir now citation index hl]
    simp
  | cons f fs =>
    have hl : latestPdf dir = some (pyMax f fs) := by unfold latestPdf; rw [hp]
    have hmem : pyMax f fs ∈ f :: fs := pyMax_mem fs f
    have hmax : ∀ g ∈ f :: fs, g.ctime ≤ (pyMax f fs).ctime :=
      fun g hg => pyMax_ctime_ge fs f g hg
    rw [checkDownloadComplete_of_latest dir now citation index (pyMax f fs) hl]
    constructor
    · intro ht
      by_cases hw : now - (pyMax f fs).ctime < 10
      · exact ⟨pyMax f fs, hmem, hmax, hw⟩
      · rw [if_neg hw] at ht
        exact absurd ht (by simp)
    · rintro ⟨g, hg, hgmax, hgw⟩
      have hle : g.ctime ≤ (pyMax f fs).ctime := hmax g hg
      have hw : now - (pyMax f fs).ctime < 10 := by omega
      rw [if_pos hw]
      by_cases hn : (pyMax f fs).name = targetFilename index citation
      · rw [if_pos hn]
      · rw [if_neg hn]

/-- C7: when the output directory holds no file ending in .pdf, the
reconciler returns false and leaves the directory unchanged. -/
theorem c7_no_pdf_returns_false (dir : List FileEntry) (now : Int)
    (citation : String) (index : Nat) (h : pdfFiles dir = []) :
    checkDownloadComplete dir now citation index = (false, dir) :=
  checkDownloadComplete_of_none dir now citation index (by unfold latestPdf; rw [h])

/-- When the selected newest .pdf already bears the target name and is
fresh, the reconciler reports true and does not touch the directory. -/
theorem checkDownloadComplete_already_named (dir : List FileEntry) (now : Int)
    (citation : String) (index : Nat) (f : FileEntry)
    (hl : latestPdf dir = some f)
    (hn : f.name = targetFilename index citation)
    (hw : now - f.ctime < 10) :
    checkDownloadComplete dir now citation index = (true, dir) := by
  rw [checkDownloadComplete_of_latest dir now citation index f hl]
  rw [if_pos hw, if_pos hn]

/-- C10: on a directory holding a file already bearing the target name
next to a fresh, accepted, differently named .pdf, the rename silently
replaces the existing target entry: the reconciler reports true and the
directory afterwards holds exactly one file, named as the target and
carrying the content of the fresh file, the prior content being lost
(os.rename with POSIX semantics). -/
theorem c10_rename_replaces_existing_target (oldF newF : FileEntry) (now : Int)
    (citation : String) (index : Nat)
    (h1 : oldF.name = targetFilename index citation)
    (h2 : newF.name ≠ targetFilename index citation)
    (h3 : strEndsWith newF.name (".pdf") = true)
    (h4 : oldF.ctime < newF.ctime)
    (h5 : now - newF.ctime < 10) :
    checkDownloadComplete [oldF, newF] now citation index =
      (true, [FileEntry.mk (targetFilename index citation) newF.ctime newF.content]) := by
  have hOld : strEndsWith oldF.name (".pdf") = true := by
    rw [h1]; exact targetFilename_ends_pdf index citation
  have hpdfs : pdfFiles [oldF, newF] = [oldF, newF] := by
    unfold pdfFiles
    simp [List.filter, hOld, h3]
  have hmax : pyMax oldF [newF] = newF := by
    show pyMax (if oldF.ctime < newF.ctime then newF else oldF) [] = newF
    rw [if_pos h4]
    rfl
  have hl : latestPdf [oldF, newF] = some newF := by
    unfold latestPdf
    rw [hpdfs]
    show some (pyMax oldF [newF]) = some newF
    rw [hmax]
  rw [checkDownloadComplete_of_latest _ _ _ _ newF hl, if_pos h5, if_neg h2]
  unfold renameFile
  have hbne1 : (oldF.name != targetFilename index citation) = false := by
    rw [h1]; simp
  have hbne2 : (newF.name != targetFilename index citation) = true := by
    simp [h2]
  simp [List.filter, hbne1, hbne2]

/-- Pass (a) selects the first link that both qualifies and confirms. -/
theorem tryLinksA_eq_find (confirms : Link → Bool) :
    ∀ ls : List Link, tryLinksA confirms ls = ls.find? (fun l => isPdfLinkA l && confirms l) := by
  intro ls
  induction ls with
  | nil => rfl
  | cons l rest ih =>
    show (if isPdfLinkA l && confirms l then some l else tryLinksA confirms rest) = _
    rw [List.find?_cons]
    cases h : isPdfLinkA l && confirms l with
    | true => simp [h]
    | false => simp [h, ih]

/-- Pass (b) selects the first link that confirms. -/
theorem tryLinksB_eq_find (confirms : Link → Bool) :
    ∀ ls : List Link, tryLinksB confirms ls = ls.find? confirms := by
  intro ls
  induction ls with
  | nil => rfl
  | cons l rest ih =>
    show (if confirms l then some l else tryLinksB confirms rest) = _
    rw [List.find?_cons]
    cases h : confirms l with
    | true => simp [h]
    | false => simp [h, ih]

/-- The status of the success record. -/
theorem recStatus_success (citation : String) (index : Nat) :
    recStatus (successRecord citation index) = some ("success") := rfl

/-- The status of the failure record. -/
theorem recStatus_failed (citation : String) :
    recStatus (failedRecord citation) = some ("failed") := rfl

/-- The status of the error record. -/
theorem recStatus_error (citation msg : String) :
    recStatus (errorRecord citation msg) = some ("error") := rfl

/-- One attempt appends exactly attemptRecords to the log. -/
theorem searchAndDownload_log (env : AttemptEnv) (citation : String) (index : Nat)
    (st : RunState) :
    (searchAndDownload env citation index st).2.log = st.log ++ attemptRecords env citation index := by
  cases env with
  | throws msg => rfl
  | blocked url => simp [searchAndDownload, attemptRecords]
  | page grouped allLinks confirms url =>
    cases h : (scanLinks confirms grouped allLinks).1 with
    | some l => simp [searchAndDownload, attemptRecords, h]
    | none => simp [searchAndDownload, attemptRecords, h]

/-- One attempt touches the manual follow-up files only on an
unconfirmed page, where it writes exactly the save_manual_url file. -/
theorem searchAndDownload_manual (env : AttemptEnv) (citation : String) (index : Nat)
    (st : RunState) :
    (searchAndDownload env citation index st).2.manualFiles =
      (match env with
       | AttemptEnv.page grouped allLinks confirms url =>
           if (scanLinks confirms grouped allLinks).1.isSome then st.manualFiles
           else saveManualUrl st.manualFiles citation index url
       | _ => st.manualFiles) := by
  cases env with
  | throws msg => rfl
  | blocked url => rfl
  | page grouped allLinks confirms url =>
    cases h : (scanLinks confirms grouped allLinks).1 with
    | some l => simp [searchAndDownload, h]
    | none => simp [searchAndDownload, h]

/-- The statuses of the records of one attempt. -/
theorem attemptRecords_statuses (env : AttemptEnv) (citation : String) (index : Nat) :
    (attemptRecords env citation index).map recStatus = ((envStatus env).map some).toList := by
  cases env with
  | throws msg => rfl
  | blocked url => rfl
  | page grouped allLinks confirms url =>
    cases h : (scanLinks confirms grouped allLinks).1 with
    | some l =>
      simp [attemptRecords, envStatus, h, recStatus_success]
    | none =>
      simp [attemptRecords, envStatus, h, recStatus_failed]

/-- Statuses appended over a whole batch: one status per attempt in
order, except that blocked attempts contribute nothing. -/
theorem processCitations_statuses :
    ∀ (batch : List (String × AttemptEnv)) (startIndex : Nat) (st : RunState),
      (processCitations batch startIndex st).log.map recStatus =
        st.log.map recStatus ++ batch.filterMap (fun ce => (envStatus ce.2).map some) := by
  intro batch
  induction batch with
  | nil => intro start st; simp [processCitations]
  | cons ce rest ih =>
    intro start st
    obtain ⟨c, env⟩ := ce
    show (processCitations rest (start + 1) (searchAndDownload env (pyStrip c) start st).2).log.map recStatus = _
    rw [ih]
    rw [searchAndDownload_log]
    rw [List.map_append, attemptRecords_statuses]
    rw [List.filterMap_cons]
    cases h : envStatus env with
    | none => simp [h, List.append_assoc]
    | some s => simp [h, List.append_assoc]

/-- Every record an attempt appends has one of three exact shapes. -/
theorem attemptRecords_shape (env : AttemptEnv) (citation : String) (index : Nat)
    (r : Rec) (h : r ∈ attemptRecords env citation index) :
    r = successRecord citation index ∨ r = failedRecord citation ∨
      (∃ m, r = errorRecord citation m) := by
  cases env with
  | throws msg =>
    simp [attemptRecords] at h
    exact Or.inr (Or.inr ⟨msg, h⟩)
  | blocked url => simp [attemptRecords] at h
  | page grouped allLinks confirms url =>
    cases hs : (scanLinks confirms grouped allLinks).1 with
    | some l =>
      simp [attemptRecords, hs] at h
      exact Or.inl h
    | none =>
      simp [attemptRecords, hs] at h
      exact Or.inr (Or.inl h)

/-- Every record in the log of a batch run comes from the starting log
or has one of the three record shapes. -/
theorem processCitations_log_mem :
    ∀ (batch : List (String × AttemptEnv)) (start : Nat) (st : RunState) (r : Rec),
      r ∈ (processCitations batch start st).log →
        r ∈ st.log ∨ (∃ c i, r = successRecord c i) ∨ (∃ c, r = failedRecord c) ∨
          (∃ c m, r = errorRecord c m) := by
  intro batch
  induction batch with
  | nil => intro start st r h; exact Or.inl h
  | cons ce rest ih =>
    intro start st r h
    obtain ⟨c, env⟩ := ce
    have h2 := ih (start + 1) (searchAndDownload env (pyStrip c) start st).2 r h
    rcases h2 with hmem | hs
    · rw [searchAndDownload_log] at hmem
      rcases List.mem_append.mp hmem with hin | hrec
      · exact Or.inl hin
      · rcases attemptRecords_shape env (pyStrip c) start r hrec with h1 | h1 | ⟨m, h1⟩
        · exact Or.inr (Or.inl ⟨pyStrip c, start, h1⟩)
        · exact Or.inr (Or.inr (Or.inl ⟨pyStrip c, h1⟩))
        · exact Or.inr (Or.inr (Or.inr ⟨pyStrip c, m, h1⟩))
    · exact Or.inr hs

/-- C1 counterexample: an attempt aborted by the CAPTCHA check (the
blocked branch of lines 73-76 of search_and_download) appends no
DownloadRecord at all, so a one-attempt batch produces an empty log
rather than exactly one record for its attempt. -/
theorem c1_blocked_attempt_logs_nothing :
    (processCitations [(("cite one"), AttemptEnv.blocked ("https://scholar.example/captcha"))]
      1 initState).log = [] := rfl

/-- C1 (amended): every attempt that ends Downloaded, NotFound or
AttemptError appends exactly one DownloadRecord, with status success,
failed or error respectively, in attempt order; an attempt that ends
Blocked appends none.  In particular a batch of three attempts ending
Downloaded, NotFound, AttemptError yields exactly the three ordered
statuses success, failed, error. -/
theorem c1_log_records_per_attempt :
    (∀ (batch : List (String × AttemptEnv)) (startIndex : Nat) (st : RunState),
      (processCitations batch startIndex st).log.map recStatus =
        st.log.map recStatus ++ batch.filterMap (fun ce => (envStatus ce.2).map some))
    ∧ (processCitations
        [(("Livet F. 2007."),
          AttemptEnv.page [Link.mk ("[PDF] site.org") ("https://site.org/a.pdf")] []
            (fun _ => true) ("https://scholar/u1")),
         (("Grubel G. 2008."), AttemptEnv.page [] [] (fun _ => false) ("https://scholar/u2")),
         (("Sutton M. 2008."), AttemptEnv.throws ("connection reset"))]
        1 initState).log.map recStatus =
      [some ("success"), some ("failed"), some ("error")] :=
  ⟨processCitations_statuses, rfl⟩

/-- C2 counterexample: an attempt that ends AttemptError (an exception
caught at line 165) writes no manual-follow-up file, although its log
status is error; the claim would require the file 002_manual_download.txt
for this ordinal-2 attempt. -/
theorem c2_error_attempt_writes_no_followup :
    (processCitations [(("cite"), AttemptEnv.throws ("boom"))] 2 initState).manualFiles = []
    ∧ (processCitations [(("cite"), AttemptEnv.throws ("boom"))] 2 initState).log.map recStatus =
        [some ("error")] :=
  ⟨rfl, rfl⟩

/-- C2 (amended): the manual-follow-up file, named by manualFileName and
holding the citation text and the last observed result-page URL, is
written exactly for an attempt that ends NotFound (status failed); an
attempt ending Downloaded, AttemptError or Blocked leaves the follow-up
files untouched. -/
theorem c2_manual_followup_exactly_on_notfound (citation url msg : String) (index : Nat)
    (st : RunState) (grouped allLinks : List Link) (confirms : Link → Bool) :
    ((searchAndDownload (AttemptEnv.throws msg) citation index st).2.manualFiles = st.manualFiles)
    ∧ ((searchAndDownload (AttemptEnv.blocked url) citation index st).2.manualFiles = st.manualFiles)
    ∧ ((searchAndDownload (AttemptEnv.page grouped allLinks confirms url) citation index st).2.manualFiles =
        if (scanLinks confirms grouped allLinks).1.isSome then st.manualFiles
        else writeFile st.manualFiles (manualFileName index) (manualContent citation url)) := by
  refine ⟨rfl, rfl, ?_⟩
  rw [searchAndDownload_manual]
  rfl

/-- C3 counterexample: pass (a) locates a qualifying link (its label
carries the PDF marker) whose click is never confirmed, and the fallback
pass (b) is entered anyway; the claim would forbid using pass (b) when
pass (a) located a qualifying link. -/
theorem c3_fallback_pass_used_despite_candidate :
    (scanLinks (fun _ => false) [Link.mk ("[PDF] Foo") ("https://x.org/foo")] []).2 = true
    ∧ isPdfLinkA (Link.mk ("[PDF] Foo") ("https://x.org/foo")) = true :=
  ⟨rfl, rfl⟩

/-- C3 (amended): pass (a) walks the links of the PDF-result grouping in
order and selects the first that qualifies (PDF marker in the label or
href ending in .pdf) and whose click is confirmed; pass (b), over the
links whose label carries the PDF marker, is entered exactly when pass
(a) confirmed no download, even when pass (a) located qualifying links;
within pass (b) the first confirmed link wins.  No other ranking is
applied in either pass. -/
theorem c3_link_selection_two_passes (confirms : Link → Bool) (grouped allLinks : List Link) :
    ((scanLinks confirms grouped allLinks).2 = true ↔
      grouped.find? (fun l => isPdfLinkA l && confirms l) = none)
    ∧ scanLinks confirms grouped allLinks =
        (match grouped.find? (fun l => isPdfLinkA l && confirms l) with
         | some l => (some l, false)
         | none => ((allLinks.filter (fun l => containsPDFMarker l.text)).find? confirms, true)) := by
  have h2 : scanLinks confirms grouped allLinks =
      (match grouped.find? (fun l => isPdfLinkA l && confirms l) with
       | some l => (some l, false)
       | none => ((allLinks.filter (fun l => containsPDFMarker l.text)).find? confirms, true)) := by
    unfold scanLinks
    rw [tryLinksA_eq_find, tryLinksB_eq_find]
  refine ⟨?_, h2⟩
  rw [h2]
  cases h : grouped.find? (fun l => isPdfLinkA l && confirms l) with
  | some l => simp [h]
  | none => simp [h]

set_option maxRecDepth 10000 in
/-- For every ordinal below 1000, the Python 03d format equals the
three-digit zero-padded decimal expansion. -/
theorem fmt03d_eq_pad : ∀ n, n < 1000 → fmt03d n = zeroPad3Spec n := by decide

/-- C4: for every ordinal n in [0, 999] and every citation (hence every
author/year extraction result, empty ones included), the target filename
is exactly the 3-digit zero-padded ordinal, an underscore, the author,
an underscore, the year, and the extension .pdf. -/
theorem c4_target_filename_format (n : Nat) (citation : String) (h : n ≤ 999) :
    targetFilename n citation =
      zeroPad3Spec n ++ ("_") ++ extractAuthor citation ++ ("_") ++ extractYear citation ++ (".pdf")
    ∧ (zeroPad3Spec n).length = 3 := by
  constructor
  · show fmt03d n ++ ("_") ++ extractAuthor citation ++ ("_") ++ extractYear citation ++ (".pdf") = _
    rw [fmt03d_eq_pad n (by omega)]
  · rfl

/-- C4 witness: ordinal 7 with the Livet citation yields
007_Livet_2007.pdf. -/
theorem c4_target_filename_format_witness :
    (targetFilename 7 ("Livet F. 2007.") =
      zeroPad3Spec 7 ++ ("_") ++ extractAuthor ("Livet F. 2007.") ++ ("_") ++
        extractYear ("Livet F. 2007.") ++ (".pdf")
     ∧ (zeroPad3Spec 7).length = 3)
    ∧ targetFilename 7 ("Livet F. 2007.") = ("007_Livet_2007.pdf") :=
  ⟨c4_target_filename_format 7 ("Livet F. 2007.") (by decide), by decide⟩

/-- C5: the derived author is the leading run of ASCII letters (empty
iff the text does not start with a letter), and the derived year is the
text of the leftmost match of the year pattern 19xx/20xx delimited by
word boundaries (empty iff no position matches). -/
theorem c5_author_year_extraction (s : String) :
    (s.toList = (extractAuthor s).toList ++ (s.toList.dropWhile isAsciiLetter)
      ∧ (∀ c ∈ (extractAuthor s).toList, isAsciiLetter c = true)
      ∧ (∀ c, (s.toList.dropWhile isAsciiLetter).head? = some c → isAsciiLetter c = false))
    ∧ (extractAuthor s = ("") ↔ ∀ c, s.toList.head? = some c → isAsciiLetter c = false)
    ∧ (extractYear s = ("") ↔ ∀ i, i < s.toList.length → isYearTokenAt s.toList i = false)
    ∧ (∀ i, isYearTokenAt s.toList i = true →
        (∀ j, j < i → isYearTokenAt s.toList j = false) →
        extractYear s = String.mk ((s.toList.drop i).take 4)) := by
  refine ⟨⟨?_, ?_, ?_⟩, extractAuthor_empty_iff s, extractYear_empty_iff s, ?_⟩
  · rw [extractAuthor_toList, List.takeWhile_append_dropWhile]
  · intro c hc
    rw [extractAuthor_toList] at hc
    exact List.mem_takeWhile_imp hc
  · exact head_dropWhile_false isAsciiLetter s.toList
  · intro i h1 h2
    exact extractYear_of_first_token s i h1 h2

set_option maxRecDepth 8000 in
/-- C5 witness: the Livet citation yields author Livet and year 2007;
a citation piece with no 19xx/20xx token yields the empty year. -/
theorem c5_author_year_extraction_witness :
    extractAuthor ("Livet F. 2007.") = ("Livet")
    ∧ extractYear ("Livet F. 2007.") = ("2007")
    ∧ extractYear ("Acta Crystallogr. A 63:87–107") = ("") := by
  have h1 := c5_author_year_extraction ("Livet F. 2007.")
  have h2 := c5_author_year_extraction ("Acta Crystallogr. A 63:87–107")
  refine ⟨by decide, ?_, ?_⟩
  · have h3 := h1.2.2.2 9 (by decide) (by decide)
    exact h3.trans (by decide)
  · exact h2.2.2.1.mpr (by decide)

/-- C6 witness: a single fresh .pdf within the window is accepted. -/
theorem c6_newest_pdf_recency_window_witness :
    (checkDownloadComplete [FileEntry.mk ("fresh.pdf") 95 ("x")] 100 ("Livet F. 2007.") 1).1 = true :=
  (c6_newest_pdf_recency_window [FileEntry.mk ("fresh.pdf") 95 ("x")] 100 ("Livet F. 2007.") 1).mpr
    ⟨FileEntry.mk ("fresh.pdf") 95 ("x"), by decide, by decide, by decide⟩

/-- C7 witness: a directory holding only a non-pdf file is reported
unreconciled and unchanged. -/
theorem c7_no_pdf_returns_false_witness :
    checkDownloadComplete [FileEntry.mk ("notes.txt") 0 ("n")] 5 ("Livet F. 2007.") 1 =
      (false, [FileEntry.mk ("notes.txt") 0 ("n")]) :=
  c7_no_pdf_returns_false [FileEntry.mk ("notes.txt") 0 ("n")] 5 ("Livet F. 2007.") 1 (by decide)

/-- C8: when the newest .pdf already bears the target filename and lies
within the recency window, reconciliation performs no rename, deletes
nothing, returns true, and running it twice leaves the directory exactly
as running it once. -/
theorem c8_reconcile_idempotent (dir : List FileEntry) (now : Int) (citation : String)
    (index : Nat) (f : FileEntry)
    (hl : latestPdf dir = some f)
    (hn : f.name = targetFilename index citation)
    (hw : now - f.ctime < 10) :
    checkDownloadComplete dir now citation index = (true, dir)
    ∧ checkDownloadComplete (checkDownloadComplete dir now citation index).2 now citation index =
        (true, dir) := by
  have h1 := checkDownloadComplete_already_named dir now citation index f hl hn hw
  refine ⟨h1, ?_⟩
  rw [h1]
  exact h1

/-- C8 witness: a directory holding exactly the correctly named fresh
target file is left untouched by one and by two reconciliations. -/
theorem c8_reconcile_idempotent_witness :
    checkDownloadComplete [FileEntry.mk ("005_Livet_2007.pdf") 100 ("pdf")] 105
        ("Livet F. 2007.") 5 =
      (true, [FileEntry.mk ("005_Livet_2007.pdf") 100 ("pdf")])
    ∧ checkDownloadComplete
        (checkDownloadComplete [FileEntry.mk ("005_Livet_2007.pdf") 100 ("pdf")] 105
          ("Livet F. 2007.") 5).2 105 ("Livet F. 2007.") 5 =
      (true, [FileEntry.mk ("005_Livet_2007.pdf") 100 ("pdf")]) :=
  c8_reconcile_idempotent [FileEntry.mk ("005_Livet_2007.pdf") 100 ("pdf")] 105
    ("Livet F. 2007.") 5 (FileEntry.mk ("005_Livet_2007.pdf") 100 ("pdf"))
    (by decide) (by decide) (by decide)

/-- C9: in the log of any batch run, a record with status success has
exactly the keys status, citation, index; a record with status failed
has exactly status, citation, reason; a record with status error has
exactly status, citation, error; every record has one of the three
statuses, and only success records carry the index key. -/
theorem c9_only_success_carries_index :
    ∀ (batch : List (String × AttemptEnv)) (start : Nat) (r : Rec),
      r ∈ (processCitations batch start initState).log →
        ((recStatus r = some ("success") →
            r.map Prod.fst = [("status"), ("citation"), ("index")])
        ∧ (recStatus r = some ("failed") →
            r.map Prod.fst = [("status"), ("citation"), ("reason")])
        ∧ (recStatus r = some ("error") →
            r.map Prod.fst = [("status"), ("citation"), ("error")])
        ∧ (recStatus r ≠ some ("success") → List.lookup ("index") r = none)
        ∧ (recStatus r = some ("success") ∨ recStatus r = some ("failed") ∨
            recStatus r = some ("error"))) := by
  intro batch start r h
  rcases processCitations_log_mem batch start initState r h with h0 | ⟨c, i, rfl⟩ | ⟨c, rfl⟩ | ⟨c, m, rfl⟩
  · exact absurd h0 (by simp [initState])
  · refine ⟨fun _ => rfl, ?_, ?_, ?_, Or.inl (recStatus_success c i)⟩
    · intro hcon
      rw [recStatus_success] at hcon
      exact absurd hcon (by decide)
    · intro hcon
      rw [recStatus_success] at hcon
      exact absurd hcon (by decide)
    · intro hcon
      exact absurd (recStatus_success c i) hcon
  · refine ⟨?_, fun _ => rfl, ?_, fun _ => rfl, Or.inr (Or.inl (recStatus_failed c))⟩
    · intro hcon
      rw [recStatus_failed] at hcon
      exact absurd hcon (by decide)
    · intro hcon
      rw [recStatus_failed] at hcon
      exact absurd hcon (by decide)
  · refine ⟨?_, ?_, fun _ => rfl, fun _ => rfl, Or.inr (Or.inr (recStatus_error c m))⟩
    · intro hcon
      rw [recStatus_error] at hcon
      exact absurd hcon (by decide)
    · intro hcon
      rw [recStatus_error] at hcon
      exact absurd hcon (by decide)

/-- C9 witness: the error record of a one-attempt batch carries exactly
the keys status, citation, error, and no index key. -/
theorem c9_only_success_carries_index_witness :
    ((recStatus (errorRecord ("c") ("m")) = some ("success") →
        (errorRecord ("c") ("m")).map Prod.fst = [("status"), ("citation"), ("index")])
    ∧ (recStatus (errorRecord ("c") ("m")) = some ("failed") →
        (errorRecord ("c") ("m")).map Prod.fst = [("status"), ("citation"), ("reason")])
    ∧ (recStatus (errorRecord ("c") ("m")) = some ("error") →
        (errorRecord ("c") ("m")).map Prod.fst = [("status"), ("citation"), ("error")])
    ∧ (recStatus (errorRecord ("c") ("m")) ≠ some ("success") →
        List.lookup ("index") (errorRecord ("c") ("m")) = none)
    ∧ (recStatus (errorRecord ("c") ("m")) = some ("success") ∨
        recStatus (errorRecord ("c") ("m")) = some ("failed") ∨
        recStatus (errorRecord ("c") ("m")) = some ("error"))) :=
  c9_only_success_carries_index [(("c"), AttemptEnv.throws ("m"))] 3 (errorRecord ("c") ("m"))
    (by decide)

/-- C10 witness: the stale correctly named file is replaced by the fresh
download and its old content disappears from the directory. -/
theorem c10_rename_replaces_existing_target_witness :
    checkDownloadComplete
        [FileEntry.mk ("005_Livet_2007.pdf") 50 ("old-bytes"),
         FileEntry.mk ("paper.pdf") 100 ("new-bytes")] 105 ("Livet F. 2007.") 5 =
      (true, [FileEntry.mk (targetFilename 5 ("Livet F. 2007.")) 100 ("new-bytes")]) :=
  c10_rename_replaces_existing_target (FileEntry.mk ("005_Livet_2007.pdf") 50 ("old-bytes"))
    (FileEntry.mk ("paper.pdf") 100 ("new-bytes")) 105 ("Livet F. 2007.") 5
    (by decide) (by decide) (by decide) (by decide) (by decide)
